import Mathlib

/-!
# Verification of the rdf4j.js REST client

A shallow embedding of the rdf4j.js TypeScript client (src/client.ts,
src/http-client.ts, src/repository-client.ts, src/transaction-client.ts,
src/graph-store-client.ts, src/types.ts).

Modelling conventions:
* JavaScript strings are Lean `String`s; where character-level reasoning is
  needed we work with `String.data : List Char`.
* A JS object used as a parameter record (`Record<string, string | number |
  boolean | undefined>`) is an association list `List (String × Option PVal)`
  in insertion order; assignment `params[k] = v` updates the existing entry in
  place or appends (`objSet`), matching JS object key semantics.
* `fetch` and response decoding are abstracted into a `Transport` function
  from a request description to `Except TError HttpResponse`; a thrown
  `RDF4JError` is the `Except.error` case.  JSON decoding of response bodies
  is a transport concern (spec §1) and is not modelled: operations surface the
  response body.
* JavaScript `NaN` (from `parseInt` on a non-numeric body) is `Option.none`.
-/

namespace RDF4J

/-! ## Decimal numeral rendering

The encoder builds parameter keys with a template literal `${i}` which renders
the decimal numeral of `i`, i.e. `Nat.repr`.  We prove that `Nat.repr` is
injective and never produces the empty string, which is what key-distinctness
arguments need. -/

/-- The decimal numeral of `n`, most significant digit first.  This is the
reference spelling that `Nat.toDigitsCore` (hence `Nat.repr`) computes. -/
def decRep (n : Nat) : List Char :=
  if h : n < 10 then [Nat.digitChar n]
  else
    have : n / 10 < n := Nat.div_lt_self (by omega) (by omega)
    decRep (n / 10) ++ [Nat.digitChar (n % 10)]

theorem decRep_ne_nil (n : Nat) : decRep n ≠ [] := by
  rw [decRep]
  split <;> simp

theorem toDigitsCore_eq_decRep (fuel n : Nat) (ds : List Char) (h : n < fuel) :
    Nat.toDigitsCore 10 fuel n ds = decRep n ++ ds := by
  induction fuel generalizing n ds with
  | zero => omega
  | succ fuel ih =>
    rw [Nat.toDigitsCore]
    by_cases h10 : n / 10 = 0
    · have hlt : n < 10 := by omega
      simp only [h10, if_pos rfl]
      rw [decRep, dif_pos hlt, Nat.mod_eq_of_lt hlt]
      simp
    · simp only [h10, if_neg h10]
      have hn : 10 ≤ n := by omega
      have hfuel : n / 10 < fuel := by omega
      rw [ih (n / 10) _ hfuel]
      conv_rhs => rw [decRep]
      rw [dif_neg (by omega : ¬ n < 10)]
      simp

theorem repr_eq_decRep (n : Nat) : Nat.repr n = (decRep n).asString := by
  rw [Nat.repr, Nat.toDigits, toDigitsCore_eq_decRep (n + 1) n [] (by omega)]
  simp

/-- Decode a digit list back to its value (base 10, `'0'` has code 48). -/
def decVal (ds : List Char) : Nat :=
  ds.foldl (fun a c => a * 10 + (c.toNat - 48)) 0

theorem decVal_append_digit (ds : List Char) (c : Char) :
    decVal (ds ++ [c]) = decVal ds * 10 + (c.toNat - 48) := by
  simp [decVal, List.foldl_append]

theorem digitChar_toNat : ∀ n, n < 10 → (Nat.digitChar n).toNat = 48 + n := by
  decide

theorem decVal_decRep (n : Nat) : decVal (decRep n) = n := by
  induction n using Nat.strong_induction_on with
  | _ n ih =>
    rw [decRep]
    by_cases h : n < 10
    · simp only [dif_pos h]
      simp [decVal, digitChar_toNat n h]
    · simp only [dif_neg h]
      have hdiv : n / 10 < n := Nat.div_lt_self (by omega) (by omega)
      rw [decVal_append_digit, ih (n / 10) hdiv,
        digitChar_toNat (n % 10) (Nat.mod_lt _ (by omega))]
      omega

theorem decRep_injective : Function.Injective decRep := by
  intro m n h
  have := congrArg decVal h
  rwa [decVal_decRep, decVal_decRep] at this

theorem repr_injective : Function.Injective Nat.repr := by
  intro m n h
  rw [repr_eq_decRep, repr_eq_decRep] at h
  have hd : decRep m = decRep n := by
    have := congrArg String.data h
    simpa [List.asString] using this
  exact decRep_injective hd

theorem repr_ne_empty (n : Nat) : Nat.repr n ≠ "" := by
  rw [repr_eq_decRep]
  intro h
  have := congrArg String.data h
  simp [List.asString] at this
  exact decRep_ne_nil n this

/-! ## JavaScript `String.prototype.split` with a single-character separator

`beginTransaction` extracts the transaction id with
`location.split("/").pop() ?? ""`.  `jsSplit` mirrors the JS builtin on a
one-character separator; its result is never the empty list, so `.pop()`
returns the last element. -/

def jsSplit (sep : Char) : List Char → List (List Char)
  | [] => [[]]
  | c :: cs =>
    match jsSplit sep cs with
    | [] => [[]]
    | h :: t => if c = sep then [] :: h :: t else (c :: h) :: t

theorem jsSplit_ne_nil (sep : Char) (s : List Char) : jsSplit sep s ≠ [] := by
  cases s with
  | nil => simp [jsSplit]
  | cons c cs =>
    rw [jsSplit]
    cases jsSplit sep cs with
    | nil => simp
    | cons h t =>
      dsimp only
      split <;> simp

theorem jsSplit_of_not_mem (sep : Char) (s : List Char) (h : sep ∉ s) :
    jsSplit sep s = [s] := by
  induction s with
  | nil => rfl
  | cons c cs ih =>
    have hc : c ≠ sep := fun hc => h (hc ▸ List.mem_cons_self c cs)
    have hcs : sep ∉ cs := fun hm => h (List.mem_cons_of_mem c hm)
    rw [jsSplit, ih hcs]
    simp [hc]

theorem jsSplit_of_mem (sep : Char) (s : List Char) (h : sep ∈ s) :
    ∃ a b l, jsSplit sep s = a :: b :: l := by
  induction s with
  | nil => simp at h
  | cons c cs ih =>
    rw [jsSplit]
    rcases List.mem_cons.mp h with hc | hcs
    · cases hsp : jsSplit sep cs with
      | nil => exact absurd hsp (jsSplit_ne_nil sep cs)
      | cons h' t => exact ⟨[], h', t, by simp [hc]⟩
    · obtain ⟨a, b, l, hab⟩ := ih hcs
      rw [hab]
      by_cases hc : c = sep
      · exact ⟨[], a, b :: l, by simp [hc]⟩
      · exact ⟨c :: a, b, l, by simp [hc]⟩

/-- The substring after the final occurrence of `sep` (the whole string when
`sep` does not occur): the "final path segment" of the specification. -/
def afterLast (sep : Char) : List Char → List Char
  | [] => []
  | c :: cs => if sep ∈ cs then afterLast sep cs else if c = sep then cs else c :: cs

theorem afterLast_of_not_mem (sep : Char) (s : List Char) (h : sep ∉ s) :
    afterLast sep s = s := by
  cases s with
  | nil => rfl
  | cons c cs =>
    have hc : c ≠ sep := fun hc => h (hc ▸ List.mem_cons_self c cs)
    have hcs : sep ∉ cs := fun hm => h (List.mem_cons_of_mem c hm)
    rw [afterLast, if_neg hcs, if_neg hc]

theorem jsSplit_getLast? (sep : Char) (s : List Char) :
    (jsSplit sep s).getLast? = some (afterLast sep s) := by
  induction s with
  | nil => rfl
  | cons c cs ih =>
    rw [jsSplit, afterLast]
    cases hsp : jsSplit sep cs with
    | nil => exact absurd hsp (jsSplit_ne_nil sep cs)
    | cons h t =>
      rw [hsp] at ih
      dsimp only
      by_cases hc : c = sep
      · rw [if_pos hc]
        by_cases hmem : sep ∈ cs
        · rw [if_pos hmem, List.getLast?_cons_cons, ih]
        · rw [if_neg hmem, List.getLast?_cons_cons, ih,
            afterLast_of_not_mem sep cs hmem, hc]
          simp
      · rw [if_neg hc]
        by_cases hmem : sep ∈ cs
        · obtain ⟨a, b, l, hab⟩ := jsSplit_of_mem sep cs hmem
          rw [hsp] at hab
          obtain ⟨rfl, rfl⟩ : h = a ∧ t = b :: l := by
            constructor <;> [exact (List.cons.injEq .. ▸ hab).1;
              exact (List.cons.injEq .. ▸ hab).2]
          rw [if_pos hmem, List.getLast?_cons_cons, ← ih, List.getLast?_cons_cons]
        · rw [if_neg hmem, if_neg hc]
          have : jsSplit sep cs = [cs] := jsSplit_of_not_mem sep cs hmem
          rw [hsp] at this
          obtain ⟨rfl, rfl⟩ : h = cs ∧ t = [] := by
            constructor <;> [exact (List.cons.injEq .. ▸ this).1;
              exact (List.cons.injEq .. ▸ this).2]
          rfl

theorem getLast?_mem {α : Type} {l : List α} {a : α} (h : l.getLast? = some a) :
    a ∈ l := by
  induction l with
  | nil => simp at h
  | cons c cs ih =>
    cases cs with
    | nil => simp_all
    | cons b bs =>
      rw [List.getLast?_cons_cons] at h
      exact List.mem_cons_of_mem c (ih h)

theorem afterLast_eq_nil_iff (sep : Char) (s : List Char) :
    afterLast sep s = [] ↔ s = [] ∨ s.getLast? = some sep := by
  induction s with
  | nil => simp [afterLast]
  | cons c cs ih =>
    rw [afterLast]
    by_cases hmem : sep ∈ cs
    · rw [if_pos hmem]
      have hne : cs ≠ [] := List.ne_nil_of_mem hmem
      cases cs with
      | nil => simp at hmem
      | cons b bs =>
        rw [ih, List.getLast?_cons_cons]
        simp
    · rw [if_neg hmem]
      by_cases hc : c = sep
      · rw [if_pos hc]
        cases cs with
        | nil => simp [hc]
        | cons b bs =>
          rw [List.getLast?_cons_cons]
          constructor
          · intro h; simp at h
          · intro h
            rcases h with h | h
            · simp at h
            · exact absurd (getLast?_mem h) hmem
      · rw [if_neg hc]
        constructor
        · intro h; simp at h
        · intro h
          rcases h with h | h
          · simp at h
          · cases cs with
            | nil => simp at h; exact absurd h hc
            | cons b bs =>
              rw [List.getLast?_cons_cons] at h
              exact absurd (getLast?_mem h) hmem

/-! ## JavaScript `parseInt(s, 10)`

`size()` returns `parseInt(result, 10)`: skip leading whitespace, accept one
optional sign, then read the maximal run of leading decimal digits; `NaN`
(modelled as `none`) when that run is empty. -/

/-- Value of the maximal leading digit run, `none` when there is none. -/
def leadingInt (cs : List Char) : Option Nat :=
  let ds := cs.takeWhile Char.isDigit
  if ds.isEmpty then none else some (decVal ds)

/-- `parseInt(s, 10)`; `none` models JS `NaN`. -/
def jsParseInt (s : String) : Option Int :=
  match s.data.dropWhile Char.isWhitespace with
  | '-' :: rest => (leadingInt rest).map (fun n => -(n : Int))
  | '+' :: rest => (leadingInt rest).map (fun n => (n : Int))
  | cs => (leadingInt cs).map (fun n => (n : Int))

theorem leadingInt_of_no_digit (cs : List Char) (h : ∀ c ∈ cs, ¬ c.isDigit) :
    leadingInt cs = none := by
  have : cs.takeWhile Char.isDigit = [] := by
    cases cs with
    | nil => rfl
    | cons c cs' =>
      rw [List.takeWhile_cons]
      simp [h c (List.mem_cons_self c cs')]
  simp [leadingInt, this]

theorem jsParseInt_of_no_digit (s : String) (h : ∀ c ∈ s.data, ¬ c.isDigit) :
    jsParseInt s = none := by
  have hdrop : ∀ c ∈ s.data.dropWhile Char.isWhitespace, ¬ c.isDigit :=
    fun c hc => h c ((List.dropWhile_sublist _).mem hc)
  rw [jsParseInt]
  split
  · next rest heq =>
    have hrest : ∀ x ∈ rest, ¬ x.isDigit := by
      intro x hx
      exact hdrop x (by rw [heq]; exact List.mem_cons_of_mem '-' hx)
    rw [leadingInt_of_no_digit _ hrest]
    rfl
  · next rest heq =>
    have hrest : ∀ x ∈ rest, ¬ x.isDigit := by
      intro x hx
      exact hdrop x (by rw [heq]; exact List.mem_cons_of_mem '+' hx)
    rw [leadingInt_of_no_digit _ hrest]
    rfl
  · rw [leadingInt_of_no_digit _ hdrop]
    rfl

/-! ## The HTTP layer (src/types.ts, src/http-client.ts)

`RequestOptions.params` is a `Record<string, string | number | boolean |
undefined>`; we model the record as its `Object.entries` list in insertion
order, and `params[key] = value` assignment as `objSet`. -/

/-- A defined parameter value: `string | number | boolean`. -/
inductive PVal where
  | str (s : String)
  | num (n : Int)
  | bool (b : Bool)
deriving DecidableEq, Repr

/-- `String(value)` on a defined parameter value. -/
def PVal.jsString : PVal → String
  | .str s => s
  | .num n => n.repr
  | .bool b => if b then "true" else "false"

/-- A JS parameter record: entries in insertion order, values possibly
`undefined` (`none`). -/
abbrev ParamRec := List (String × Option PVal)

/-- `record[k] = v`: update the existing entry in place, else append. -/
def objSet (ps : ParamRec) (k : String) (v : Option PVal) : ParamRec :=
  if ps.any (fun p => p.1 = k) then
    ps.map (fun p => if p.1 = k then (k, v) else p)
  else ps ++ [(k, v)]

/-- `record[k]`: `some none` = present but `undefined`, `none` = absent. -/
def objLookup (ps : ParamRec) (k : String) : Option (Option PVal) :=
  (ps.find? (fun p => p.1 = k)).map Prod.snd

/-- Object rest-destructuring `{ k: _, ...rest }`: drop the entry named `k`. -/
def objRemove (ps : ParamRec) (k : String) : ParamRec :=
  ps.filter (fun p => p.1 ≠ k)

theorem find?_map_set_ne (qs : ParamRec) (k k' : String) (v : Option PVal)
    (hk : k' ≠ k) :
    List.find? (fun p => p.1 = k')
        (qs.map (fun p => if p.1 = k then (k, v) else p)) =
      List.find? (fun p => p.1 = k') qs := by
  induction qs with
  | nil => rfl
  | cons q qs ih =>
    rw [List.map_cons, List.find?, List.find?]
    by_cases hq : q.1 = k
    · rw [if_pos hq]
      have h1 : (decide ((k, v).1 = k')) = false := by
        simp only [decide_eq_false_iff_not]
        exact fun h => hk (h.symm)
      have h2 : (decide (q.1 = k')) = false := by
        simp only [decide_eq_false_iff_not, hq]
        exact fun h => hk (h.symm)
      simp only [h1, h2]
      exact ih
    · rw [if_neg hq]
      cases hd : decide (q.1 = k') <;> simp only [hd]
      exact ih

theorem find?_map_set_eq (qs : ParamRec) (k : String) (v : Option PVal)
    (hmem : ∃ p ∈ qs, p.1 = k) :
    List.find? (fun p => p.1 = k)
        (qs.map (fun p => if p.1 = k then (k, v) else p)) = some (k, v) := by
  induction qs with
  | nil => simp at hmem
  | cons q qs ih =>
    rw [List.map_cons, List.find?]
    by_cases hq : q.1 = k
    · rw [if_pos hq]
      simp
    · rw [if_neg hq]
      have : (decide (q.1 = k)) = false := by simp [hq]
      simp only [this]
      obtain ⟨p, hp, hpk⟩ := hmem
      rcases List.mem_cons.mp hp with rfl | hp'
      · exact absurd hpk hq
      · exact ih ⟨p, hp', hpk⟩

theorem objLookup_objSet (ps : ParamRec) (k k' : String) (v : Option PVal) :
    objLookup (objSet ps k v) k' =
      if k' = k then some v else objLookup ps k' := by
  rw [objSet]
  split
  · next hany =>
    simp only [List.any_eq_true, decide_eq_true_eq] at hany
    by_cases hk : k' = k
    · subst hk
      rw [if_pos rfl, objLookup, find?_map_set_eq ps k' v hany]
      rfl
    · rw [if_neg hk, objLookup, objLookup, find?_map_set_ne ps k k' v hk]
  · next hany =>
    simp only [List.any_eq_true, decide_eq_true_eq, not_exists, not_and] at hany
    rw [objLookup, List.find?_append]
    by_cases hk : k' = k
    · subst hk
      have : ps.find? (fun p => p.1 = k') = none := by
        rw [List.find?_eq_none]
        intro p hp
        simp only [decide_eq_true_eq]
        exact hany p hp
      rw [this, if_pos rfl]
      simp [List.find?]
    · rw [if_neg hk, objLookup]
      have : List.find? (fun p => p.1 = k') [(k, v)] = none := by
        have : (decide ((k, v).1 = k')) = false := by
          simp only [decide_eq_false_iff_not]
          exact fun h => hk (h.symm)
        simp [List.find?, this]
      rw [this]
      simp

theorem objLookup_objRemove (ps : ParamRec) (k k' : String) :
    objLookup (objRemove ps k) k' =
      if k' = k then none else objLookup ps k' := by
  rw [objRemove]
  by_cases hk : k' = k
  · subst hk
    rw [if_pos rfl, objLookup, List.find?_eq_none.mpr]
    · rfl
    · intro p hp
      have := List.of_mem_filter hp
      simp only [decide_eq_true_eq] at this ⊢
      simpa using this
  · rw [if_neg hk, objLookup, objLookup]
    congr 1
    induction ps with
    | nil => rfl
    | cons q qs ih =>
      rw [List.filter_cons]
      by_cases hq : q.1 = k
      · have hd : (decide (q.1 ≠ k)) = false := by simp [hq]
        rw [hd]
        simp only [Bool.false_eq_true, if_false]
        rw [List.find?]
        have hd2 : (decide (q.1 = k')) = false := by
          simp only [decide_eq_false_iff_not, hq]
          exact fun h => hk (h.symm)
        simp only [hd2]
        exact ih
      · have hd : (decide (q.1 ≠ k)) = true := by simp [hq]
        rw [hd]
        simp only [if_true]
        rw [List.find?, List.find?]
        cases hd2 : decide (q.1 = k') <;> simp only [hd2]
        exact ih

/-- `graphs.forEach((uri, i) => { params[key(i)] = uri })`: assign a batch of
key/value pairs, left to right. -/
def setAll (ps : ParamRec) (pairs : List (String × Option PVal)) : ParamRec :=
  pairs.foldl (fun a p => objSet a p.1 p.2) ps

theorem objLookup_setAll_of_ne (pairs : List (String × Option PVal))
    (ps : ParamRec) (k : String) (h : ∀ p ∈ pairs, p.1 ≠ k) :
    objLookup (setAll ps pairs) k = objLookup ps k := by
  induction pairs generalizing ps with
  | nil => rfl
  | cons p rest ih =>
    rw [setAll, List.foldl_cons]
    have h1 : ∀ q ∈ rest, q.1 ≠ k := fun q hq => h q (List.mem_cons_of_mem p hq)
    rw [show List.foldl (fun a p => objSet a p.1 p.2) (objSet ps p.1 p.2) rest =
        setAll (objSet ps p.1 p.2) rest from rfl, ih _ h1, objLookup_objSet,
      if_neg (fun hk => h p (List.mem_cons_self p rest) hk.symm)]

theorem objLookup_setAll_mem (pairs : List (String × Option PVal))
    (ps : ParamRec) (k : String) (v : Option PVal)
    (hmem : (k, v) ∈ pairs) (hnd : (pairs.map Prod.fst).Nodup) :
    objLookup (setAll ps pairs) k = some v := by
  induction pairs generalizing ps with
  | nil => simp at hmem
  | cons p rest ih =>
    rw [setAll, List.foldl_cons,
      show List.foldl (fun a p => objSet a p.1 p.2) (objSet ps p.1 p.2) rest =
        setAll (objSet ps p.1 p.2) rest from rfl]
    rw [List.map_cons, List.nodup_cons] at hnd
    rcases List.mem_cons.mp hmem with heq | hmem'
    · have hk : p.1 = k := by rw [← heq]
      have hrest : ∀ q ∈ rest, q.1 ≠ k := by
        intro q hq hqk
        exact hnd.1 (hk ▸ hqk ▸ List.mem_map_of_mem Prod.fst hq)
      rw [objLookup_setAll_of_ne rest _ k hrest, ← heq, objLookup_objSet,
        if_pos rfl]
    · exact ih _ hmem' hnd.2

/-! ### Parameter-key distinctness helpers

Keys built by the encoder are compared by exhibiting a position at which
their characters differ. -/

theorem str_ne_of_getElem? (s t : String) (i : Nat) (x y : Char)
    (hs : s.data[i]? = some x) (ht : t.data[i]? = some y) (hxy : x ≠ y) :
    s ≠ t := by
  intro h
  rw [h, ht] at hs
  exact hxy (Option.some.inj hs).symm

theorem append_getElem?_left (p a : String) (i : Nat) (x : Char)
    (hp : p.data[i]? = some x) : (p ++ a).data[i]? = some x := by
  rw [String.data_append]
  have hi : i < p.data.length := by
    rcases List.getElem?_eq_some_iff.mp hp with ⟨h, _⟩
    exact h
  rw [List.getElem?_append_left hi]
  exact hp

theorem append_ne_append_of_getElem? (p q a b : String) (i : Nat) (x y : Char)
    (hp : p.data[i]? = some x) (hq : q.data[i]? = some y) (hxy : x ≠ y) :
    p ++ a ≠ q ++ b :=
  str_ne_of_getElem? _ _ i x y (append_getElem?_left p a i x hp)
    (append_getElem?_left q b i y hq) hxy

theorem append_ne_of_getElem? (p a q : String) (i : Nat) (x y : Char)
    (hp : p.data[i]? = some x) (hq : q.data[i]? = some y) (hxy : x ≠ y) :
    p ++ a ≠ q := by
  have := append_ne_append_of_getElem? p q a "" i x y hp hq hxy
  rwa [String.append_empty] at this

theorem append_left_cancel_str {p a b : String} (h : p ++ a = p ++ b) :
    a = b := by
  have hd := congrArg String.data h
  rw [String.data_append, String.data_append] at hd
  exact String.ext (List.append_cancel_left hd)

/-- The index suffix of the `i`-th repeated-key parameter:
`${i > 0 ? i : ""}`. -/
def idxSuffix (i : Nat) : String := if 0 < i then Nat.repr i else ""

theorem idxSuffix_injective {i j : Nat} (h : i ≠ j) :
    idxSuffix i ≠ idxSuffix j := by
  rw [idxSuffix, idxSuffix]
  rcases Nat.eq_zero_or_pos i with hi | hi <;>
    rcases Nat.eq_zero_or_pos j with hj | hj
  · omega
  · subst hi
    rw [if_neg (by omega), if_pos hj]
    exact fun he => repr_ne_empty j he.symm
  · subst hj
    rw [if_pos hi, if_neg (by omega)]
    exact repr_ne_empty i
  · rw [if_pos hi, if_pos hj]
    exact fun he => h (repr_injective he)

/-! ### Wire requests and the transport -/

/-- MIME type tags used by the client (src/types.ts, `ContentTypes`). -/
def ContentTypes.TURTLE : String := "text/turtle"

def ContentTypes.SPARQL_QUERY : String := "application/sparql-query"

def ContentTypes.SPARQL_UPDATE : String := "application/sparql-update"

def ContentTypes.SPARQL_RESULTS_JSON : String :=
  "application/sparql-results+json"

def ContentTypes.TEXT : String := "text/plain"

/-- HTTP methods used by the client (`HttpMethod` minus PATCH, unused). -/
inductive Method where
  | GET | POST | PUT | DELETE | HEAD
deriving DecidableEq, Repr

/-- One request handed to `HttpClient.request`: method, path and the
`RequestOptions` fields the client fills in. -/
structure HttpRequest where
  method : Method
  path : String
  params : ParamRec := []
  body : Option String := none
  contentType : Option String := none
  accept : Option String := none
  timeout : Option Nat := none
deriving DecidableEq, Repr

/-- The decoded response: its body text and the `location` header
(`response.headers.get("location")`). -/
structure HttpResponse where
  body : String := ""
  location : Option String := none
deriving DecidableEq, Repr

/-- `RDF4JError`: status code and status text of a non-2xx response. -/
structure TError where
  status : Nat
  statusText : String
deriving DecidableEq, Repr

/-- The abstracted `fetch`-and-decode capability: `Except.error` is a thrown
`RDF4JError` (or any transport failure). -/
def Transport : Type := HttpRequest → Except TError HttpResponse

/-! ### `HttpClient.buildUrl` (src/http-client.ts lines 32-48)

Only the query-parameter portion is modelled: the loop
`for (const [key, value] of Object.entries(params)) if (value !== undefined)
url.searchParams.set(key, String(value))`. -/

/-- `url.searchParams.set(key, value)`. -/
def searchSet (qs : List (String × String)) (k v : String) :
    List (String × String) :=
  if qs.any (fun p => p.1 = k) then
    qs.map (fun p => if p.1 = k then (k, v) else p)
  else qs ++ [(k, v)]

/-- The query-string pairs of the URL built by `HttpClient.buildUrl`. -/
def buildSearchParams (params : ParamRec) : List (String × String) :=
  params.foldl
    (fun qs p =>
      match p.2 with
      | none => qs
      | some v => searchSet qs p.1 v.jsString) []

/-- The defined entries of a parameter record, stringified. -/
def definedPairs (params : ParamRec) : List (String × String) :=
  params.filterMap (fun p => p.2.map (fun v => (p.1, v.jsString)))

theorem searchSet_of_not_mem (qs : List (String × String)) (k v : String)
    (h : k ∉ qs.map Prod.fst) : searchSet qs k v = qs ++ [(k, v)] := by
  rw [searchSet, if_neg]
  simp only [List.any_eq_true, decide_eq_true_eq, not_exists, not_and]
  intro p hp hpk
  exact h (hpk ▸ List.mem_map_of_mem Prod.fst hp)

theorem buildSearchParams_aux (params : ParamRec)
    (acc : List (String × String))
    (hdisj : ∀ k ∈ params.map Prod.fst, k ∉ acc.map Prod.fst)
    (hnd : (params.map Prod.fst).Nodup) :
    params.foldl
        (fun qs p =>
          match p.2 with
          | none => qs
          | some v => searchSet qs p.1 v.jsString) acc =
      acc ++ definedPairs params := by
  induction params generalizing acc with
  | nil => simp [definedPairs]
  | cons p rest ih =>
    rw [List.map_cons, List.nodup_cons] at hnd
    rw [List.foldl_cons]
    cases hv : p.2 with
    | none =>
      rw [ih acc (fun k hk => hdisj k (List.mem_cons_of_mem _ hk)) hnd.2]
      simp [definedPairs, List.filterMap_cons, hv]
    | some v =>
      dsimp only
      have hnp : p.1 ∉ acc.map Prod.fst :=
        hdisj p.1 (List.mem_cons_self _ _)
      rw [searchSet_of_not_mem acc p.1 v.jsString hnp]
      rw [ih (acc ++ [(p.1, v.jsString)])
        (by
          intro k hk
          rw [List.map_append, List.mem_append]
          rintro (hka | hkb)
          · exact hdisj k (List.mem_cons_of_mem _ hk) hka
          · simp only [List.map_cons, List.map_nil, List.mem_singleton] at hkb
            exact hnd.1 (hkb ▸ hk)) hnd.2]
      simp [definedPairs, List.filterMap_cons, hv]

theorem buildSearchParams_eq (params : ParamRec)
    (hnd : (params.map Prod.fst).Nodup) :
    buildSearchParams params = definedPairs params := by
  rw [buildSearchParams, buildSearchParams_aux params [] (by simp) hnd]
  rfl

theorem nodup_keys_val_eq {l : ParamRec} (hnd : (l.map Prod.fst).Nodup)
    {k : String} {a b : Option PVal} (ha : (k, a) ∈ l) (hb : (k, b) ∈ l) :
    a = b := by
  induction l with
  | nil => simp at ha
  | cons p rest ih =>
    rw [List.map_cons, List.nodup_cons] at hnd
    rcases List.mem_cons.mp ha with rfl | ha' <;>
      rcases List.mem_cons.mp hb with hb | hb'
    · exact ((Prod.mk.injEq ..).mp hb.symm).2
    · exact absurd (List.mem_map_of_mem Prod.fst hb') hnd.1
    · rcases hb with rfl
      exact absurd (List.mem_map_of_mem Prod.fst ha') hnd.1
    · exact ih hnd.2 ha' hb'

/-! ## RepositoryClient (src/repository-client.ts) -/

/-- A `string | string[]` option value. -/
inductive StrOrList where
  | str (s : String)
  | list (l : List String)
deriving DecidableEq, Repr

/-- `Array.isArray(x) ? x : [x]`. -/
def toArray : StrOrList → List String
  | .str s => [s]
  | .list l => l

/-- `Array.isArray(c) ? c.join(",") : c` (context fields of statement
filters). -/
def ctxJoin : Option StrOrList → Option String
  | none => none
  | some (.str s) => some s
  | some (.list l) => some (String.intercalate "," l)

/-- `QueryOptions` (src/repository-client.ts lines 33-50).  `bindings` is the
`Object.entries` list of the bindings record, in insertion order. -/
structure QueryOptions where
  infer : Option Bool := none
  timeout : Option Nat := none
  defaultGraphUri : Option StrOrList := none
  namedGraphUri : Option StrOrList := none
  bindings : Option (List (String × String)) := none
  distinct : Option Bool := none
  limit : Option Int := none
  offset : Option Int := none
deriving DecidableEq, Repr

/-- `StatementOptions` (src/repository-client.ts lines 53-64). -/
structure StatementOptions where
  subj : Option String := none
  pred : Option String := none
  obj : Option String := none
  context : Option StrOrList := none
  infer : Option Bool := none
deriving DecidableEq, Repr

/-- The indexed repeated key of one graph-URI list element:
`` `default-graph-uri${i > 0 ? i : ""}` ``. -/
def graphKey (base : String) (i : Nat) : String := base ++ idxSuffix i

/-- The key/value assignments performed by
`graphs.forEach((uri, i) => { params[key(i)] = uri })`. -/
def graphPairs (base : String) (graphs : List String) :
    List (String × Option PVal) :=
  graphs.enum.map (fun p => (graphKey base p.1, some (.str p.2)))

/-- One `if (options?.x) { const graphs = Array.isArray(x) ? x : [x];
graphs.forEach(...) }` block.  JS truthiness: `undefined` and `""` are falsy
and skip the block; an array (even empty) is truthy. -/
def addGraphParams (ps : ParamRec) (base : String) : Option StrOrList → ParamRec
  | none => ps
  | some (.str s) => if s = "" then ps else setAll ps (graphPairs base [s])
  | some (.list l) => setAll ps (graphPairs base l)

/-- `key.startsWith("$") ? key : `$${key}` ` — JS `startsWith("$")` holds
exactly when the first character is `'$'`. -/
def bindingKey (k : String) : String :=
  if k.data.head? = some '$' then k else "$" ++ k

/-- The `if (options?.bindings) { for (const [key, value] of
Object.entries(options.bindings)) ... }` block. -/
def addBindings (ps : ParamRec) : Option (List (String × String)) → ParamRec
  | none => ps
  | some bs => bs.foldl (fun a kv => objSet a (bindingKey kv.1) (some (.str kv.2))) ps

/-- `RepositoryClient.buildQueryParams` (src/repository-client.ts
lines 157-199): the initial record literal, then the default-graph block,
the named-graph block, and the bindings block, in source order. -/
def buildQueryParams (query : String) (options : Option QueryOptions) :
    ParamRec :=
  addBindings
    (addGraphParams
      (addGraphParams
        [("query", some (.str query)),
         ("queryLn", some (.str "sparql")),
         ("infer", (options.bind QueryOptions.infer).map PVal.bool),
         ("distinct", (options.bind QueryOptions.distinct).map PVal.bool),
         ("limit", (options.bind QueryOptions.limit).map PVal.num),
         ("offset", (options.bind QueryOptions.offset).map PVal.num)]
        "default-graph-uri" (options.bind QueryOptions.defaultGraphUri))
      "named-graph-uri" (options.bind QueryOptions.namedGraphUri))
    (options.bind QueryOptions.bindings)

/-- The options record of `updateWithGraphs` (src/repository-client.ts
lines 217-223). -/
structure UpdateGraphOptions where
  usingGraphUri : Option StrOrList := none
  usingNamedGraphUri : Option StrOrList := none
  removeGraphUri : Option String := none
  insertGraphUri : Option String := none
  timeout : Option Nat := none
deriving DecidableEq, Repr

/-- The parameter record built by `RepositoryClient.updateWithGraphs`
(src/repository-client.ts lines 225-248). -/
def updateWithGraphsParams (options : Option UpdateGraphOptions) : ParamRec :=
  addGraphParams
    (addGraphParams
      [("remove-graph-uri",
         (options.bind UpdateGraphOptions.removeGraphUri).map PVal.str),
       ("insert-graph-uri",
         (options.bind UpdateGraphOptions.insertGraphUri).map PVal.str)]
      "using-graph-uri" (options.bind UpdateGraphOptions.usingGraphUri))
    "using-named-graph-uri"
    (options.bind UpdateGraphOptions.usingNamedGraphUri)

def RepositoryClient.basePath (repositoryId : String) : String :=
  "/repositories/" ++ repositoryId

/-- The GET request of `RepositoryClient.query` (lines 93-100). -/
def RepositoryClient.queryReq (repositoryId sparql : String)
    (options : Option QueryOptions) : HttpRequest :=
  { method := .GET, path := RepositoryClient.basePath repositoryId,
    params := buildQueryParams sparql options,
    accept := some ContentTypes.SPARQL_RESULTS_JSON,
    timeout := options.bind QueryOptions.timeout }

def RepositoryClient.query (repositoryId sparql : String)
    (options : Option QueryOptions) (t : Transport) : Except TError String :=
  (t (RepositoryClient.queryReq repositoryId sparql options)).map
    HttpResponse.body

/-- The POST request of `RepositoryClient.queryPost` (lines 103-118): the
`query` key is removed from the parameter set
(`const { query: _, ...restParams } = params`) and the SPARQL string goes in
the body. -/
def RepositoryClient.queryPostReq (repositoryId sparql : String)
    (options : Option QueryOptions) : HttpRequest :=
  { method := .POST, path := RepositoryClient.basePath repositoryId,
    params := objRemove (buildQueryParams sparql options) "query",
    body := some sparql,
    contentType := some ContentTypes.SPARQL_QUERY,
    accept := some ContentTypes.SPARQL_RESULTS_JSON,
    timeout := options.bind QueryOptions.timeout }

def RepositoryClient.queryPost (repositoryId sparql : String)
    (options : Option QueryOptions) (t : Transport) : Except TError String :=
  (t (RepositoryClient.queryPostReq repositoryId sparql options)).map
    HttpResponse.body

/-- The POST request of `RepositoryClient.update` (lines 206-212). -/
def RepositoryClient.updateReq (repositoryId sparql : String)
    (timeout : Option Nat) : HttpRequest :=
  { method := .POST,
    path := RepositoryClient.basePath repositoryId ++ "/statements",
    body := some sparql,
    contentType := some ContentTypes.SPARQL_UPDATE,
    timeout := timeout }

def RepositoryClient.update (repositoryId sparql : String)
    (timeout : Option Nat) (t : Transport) : Except TError Unit :=
  (t (RepositoryClient.updateReq repositoryId sparql timeout)).map fun _ => ()

/-- The GET request of `RepositoryClient.size` (lines 350-356). -/
def RepositoryClient.sizeReq (repositoryId : String)
    (context : Option String) : HttpRequest :=
  { method := .GET,
    path := RepositoryClient.basePath repositoryId ++ "/size",
    params := [("context", context.map PVal.str)],
    accept := some ContentTypes.TEXT }

/-- `RepositoryClient.size`: `parseInt(result, 10)` of the text body;
`none` models `NaN`. -/
def RepositoryClient.size (repositoryId : String) (context : Option String)
    (t : Transport) : Except TError (Option Int) :=
  match t (RepositoryClient.sizeReq repositoryId context) with
  | .error e => .error e
  | .ok resp => .ok (jsParseInt resp.body)

/-- The GET request of `RepositoryClient.getNamespace` (lines 396-407);
`pfx` is the namespace prefix argument. -/
def RepositoryClient.getNamespaceReq (repositoryId pfx : String) :
    HttpRequest :=
  { method := .GET,
    path := RepositoryClient.basePath repositoryId ++ "/namespaces/" ++ pfx,
    accept := some ContentTypes.TEXT }

/-- `RepositoryClient.getNamespace`: a thrown transport error is caught and
converted to `null`. -/
def RepositoryClient.getNamespace (repositoryId pfx : String)
    (t : Transport) : Option String :=
  match t (RepositoryClient.getNamespaceReq repositoryId pfx) with
  | .ok resp => some resp.body
  | .error _ => none

/-- Transaction isolation levels (src/types.ts lines 88-94). -/
inductive IsolationLevel where
  | NONE | READ_UNCOMMITTED | READ_COMMITTED | SNAPSHOT_READ | SNAPSHOT
  | SERIALIZABLE
deriving DecidableEq, Repr

/-- The wire string of an isolation level (the TS type is a string union). -/
def IsolationLevel.toWire : IsolationLevel → String
  | .NONE => "NONE"
  | .READ_UNCOMMITTED => "READ_UNCOMMITTED"
  | .READ_COMMITTED => "READ_COMMITTED"
  | .SNAPSHOT_READ => "SNAPSHOT_READ"
  | .SNAPSHOT => "SNAPSHOT"
  | .SERIALIZABLE => "SERIALIZABLE"

/-! ## TransactionClient (src/transaction-client.ts)

A handle is `{ repositoryId, transactionId, active }`; every operation is a
function of the handle and the transport, returning the list of wire requests
it issued (the trace), its result, and the successor handle state. -/

structure TxClient where
  repositoryId : String
  transactionId : String
  active : Bool
deriving DecidableEq, Repr

/-- `new TransactionClient(http, repositoryId, transactionId)`: the private
field initialiser `active = true` runs at construction. -/
def TxClient.new (repositoryId transactionId : String) : TxClient :=
  { repositoryId, transactionId, active := true }

/-- `TransactionClient.basePath` (lines 19-21). -/
def TxClient.basePath (c : TxClient) : String :=
  "/repositories/" ++ c.repositoryId ++ "/transactions/" ++ c.transactionId

/-- Errors surfaced by a transaction operation: the synchronous
`Error("Transaction is no longer active")` of `ensureActive`, or a propagated
transport error. -/
inductive TxError where
  | notActive
  | transport (e : TError)
deriving DecidableEq, Repr

/-- Outcome of one transaction operation: requests issued, result, and the
handle's state afterwards. -/
structure TxOut (α : Type) where
  trace : List HttpRequest
  result : Except TxError α
  state : TxClient
deriving Repr

/-- The POST request of `TransactionClient.query` (lines 34-46). -/
def TxClient.queryReq (c : TxClient) (sparql : String)
    (options : Option QueryOptions) : HttpRequest :=
  { method := .POST, path := c.basePath,
    body := some sparql,
    contentType := some ContentTypes.SPARQL_QUERY,
    params := [("action", some (.str "QUERY")),
               ("infer", (options.bind QueryOptions.infer).map PVal.bool)],
    accept := some ContentTypes.SPARQL_RESULTS_JSON,
    timeout := options.bind QueryOptions.timeout }

def TxClient.query (c : TxClient) (sparql : String)
    (options : Option QueryOptions) (t : Transport) : TxOut String :=
  if !c.active then ⟨[], .error .notActive, c⟩
  else
    match t (c.queryReq sparql options) with
    | .error e => ⟨[c.queryReq sparql options], .error (.transport e), c⟩
    | .ok resp => ⟨[c.queryReq sparql options], .ok resp.body, c⟩

/-- The POST request of `TransactionClient.update` (lines 49-57). -/
def TxClient.updateReq (c : TxClient) (sparql : String)
    (timeout : Option Nat) : HttpRequest :=
  { method := .POST, path := c.basePath,
    body := some sparql,
    contentType := some ContentTypes.SPARQL_UPDATE,
    params := [("action", some (.str "UPDATE"))],
    timeout := timeout }

def TxClient.update (c : TxClient) (sparql : String) (timeout : Option Nat)
    (t : Transport) : TxOut Unit :=
  if !c.active then ⟨[], .error .notActive, c⟩
  else
    match t (c.updateReq sparql timeout) with
    | .error e => ⟨[c.updateReq sparql timeout], .error (.transport e), c⟩
    | .ok _ => ⟨[c.updateReq sparql timeout], .ok (), c⟩

/-- The options record of `TransactionClient.add` (lines 62-66). -/
structure AddOptions where
  contentType : String
  context : Option String := none
  baseURI : Option String := none
deriving DecidableEq, Repr

/-- The PUT request of `TransactionClient.add` (lines 60-78). -/
def TxClient.addReq (c : TxClient) (data : String) (options : AddOptions) :
    HttpRequest :=
  { method := .PUT, path := c.basePath,
    body := some data,
    contentType := some options.contentType,
    params := [("action", some (.str "ADD")),
               ("context", options.context.map PVal.str),
               ("baseURI", options.baseURI.map PVal.str)] }

def TxClient.add (c : TxClient) (data : String) (options : AddOptions)
    (t : Transport) : TxOut Unit :=
  if !c.active then ⟨[], .error .notActive, c⟩
  else
    match t (c.addReq data options) with
    | .error e => ⟨[c.addReq data options], .error (.transport e), c⟩
    | .ok _ => ⟨[c.addReq data options], .ok (), c⟩

/-- The POST request of `TransactionClient.delete` (lines 81-94). -/
def TxClient.deleteReq (c : TxClient) (options : Option StatementOptions) :
    HttpRequest :=
  { method := .POST, path := c.basePath,
    params := [("action", some (.str "DELETE")),
               ("subj", (options.bind StatementOptions.subj).map PVal.str),
               ("pred", (options.bind StatementOptions.pred).map PVal.str),
               ("obj", (options.bind StatementOptions.obj).map PVal.str),
               ("context",
                 (ctxJoin (options.bind StatementOptions.context)).map
                   PVal.str)] }

def TxClient.delete (c : TxClient) (options : Option StatementOptions)
    (t : Transport) : TxOut Unit :=
  if !c.active then ⟨[], .error .notActive, c⟩
  else
    match t (c.deleteReq options) with
    | .error e => ⟨[c.deleteReq options], .error (.transport e), c⟩
    | .ok _ => ⟨[c.deleteReq options], .ok (), c⟩

/-- The POST request of `TransactionClient.getStatements` (lines 97-114). -/
def TxClient.getStatementsReq (c : TxClient)
    (options : Option StatementOptions) (accept : Option String) :
    HttpRequest :=
  { method := .POST, path := c.basePath,
    params := [("action", some (.str "GET")),
               ("subj", (options.bind StatementOptions.subj).map PVal.str),
               ("pred", (options.bind StatementOptions.pred).map PVal.str),
               ("obj", (options.bind StatementOptions.obj).map PVal.str),
               ("context",
                 (ctxJoin (options.bind StatementOptions.context)).map
                   PVal.str),
               ("infer",
                 (options.bind StatementOptions.infer).map PVal.bool)],
    accept := some (accept.getD ContentTypes.TURTLE) }

def TxClient.getStatements (c : TxClient) (options : Option StatementOptions)
    (accept : Option String) (t : Transport) : TxOut String :=
  if !c.active then ⟨[], .error .notActive, c⟩
  else
    match t (c.getStatementsReq options accept) with
    | .error e => ⟨[c.getStatementsReq options accept],
        .error (.transport e), c⟩
    | .ok resp => ⟨[c.getStatementsReq options accept], .ok resp.body, c⟩

/-- The POST request of `TransactionClient.size` (lines 117-127). -/
def TxClient.sizeReq (c : TxClient) (context : Option String) : HttpRequest :=
  { method := .POST, path := c.basePath,
    params := [("action", some (.str "SIZE")),
               ("context", context.map PVal.str)],
    accept := some ContentTypes.TEXT }

/-- `TransactionClient.size`: `parseInt(result, 10)`; `none` models `NaN`. -/
def TxClient.size (c : TxClient) (context : Option String) (t : Transport) :
    TxOut (Option Int) :=
  if !c.active then ⟨[], .error .notActive, c⟩
  else
    match t (c.sizeReq context) with
    | .error e => ⟨[c.sizeReq context], .error (.transport e), c⟩
    | .ok resp => ⟨[c.sizeReq context], .ok (jsParseInt resp.body), c⟩

/-- The PUT request of `TransactionClient.commit` (lines 130-136). -/
def TxClient.commitReq (c : TxClient) : HttpRequest :=
  { method := .PUT, path := c.basePath,
    params := [("action", some (.str "COMMIT"))] }

/-- `TransactionClient.commit`: guard, one PUT with the COMMIT action, and
`this.active = false` only after the request resolved successfully. -/
def TxClient.commit (c : TxClient) (t : Transport) : TxOut Unit :=
  if !c.active then ⟨[], .error .notActive, c⟩
  else
    match t c.commitReq with
    | .error e => ⟨[c.commitReq], .error (.transport e), c⟩
    | .ok _ => ⟨[c.commitReq], .ok (), { c with active := false }⟩

/-- The DELETE request of `TransactionClient.rollback` (lines 139-143):
`this.http.delete<void>(this.basePath)` — no options, hence no parameters. -/
def TxClient.rollbackReq (c : TxClient) : HttpRequest :=
  { method := .DELETE, path := c.basePath }

/-- `TransactionClient.rollback`: guard, one DELETE, and
`this.active = false` only after the request resolved successfully. -/
def TxClient.rollback (c : TxClient) (t : Transport) : TxOut Unit :=
  if !c.active then ⟨[], .error .notActive, c⟩
  else
    match t c.rollbackReq with
    | .error e => ⟨[c.rollbackReq], .error (.transport e), c⟩
    | .ok _ => ⟨[c.rollbackReq], .ok (), { c with active := false }⟩

/-- The POST request of `TransactionClient.ping` (lines 146-151). -/
def TxClient.pingReq (c : TxClient) : HttpRequest :=
  { method := .POST, path := c.basePath,
    params := [("action", some (.str "PING"))] }

def TxClient.ping (c : TxClient) (t : Transport) : TxOut Unit :=
  if !c.active then ⟨[], .error .notActive, c⟩
  else
    match t c.pingReq with
    | .error e => ⟨[c.pingReq], .error (.transport e), c⟩
    | .ok _ => ⟨[c.pingReq], .ok (), c⟩

/-! ## `beginTransaction` (src/repository-client.ts lines 443-466) -/

/-- Errors of `beginTransaction`: a propagated transport error, or the
`Error("Failed to get transaction ID from response")` thrown when no id can
be extracted from the Location header. -/
inductive BeginError where
  | transport (e : TError)
  | missingTransactionId
deriving DecidableEq, Repr

/-- The POST request of `beginTransaction`, optionally carrying the
isolation-level parameter. -/
def RepositoryClient.beginTxReq (repositoryId : String)
    (iso : Option IsolationLevel) : HttpRequest :=
  { method := .POST,
    path := RepositoryClient.basePath repositoryId ++ "/transactions",
    params := match iso with
      | some l => [("isolation-level", some (.str l.toWire))]
      | none => [],
    accept := some ContentTypes.TEXT }

/-- `location.split("/").pop() ?? ""` applied to
`response.headers.get("location") ?? ""`. -/
def extractTxnId (location : Option String) : String :=
  ((jsSplit '/' (location.getD "").data).getLastD []).asString

/-- `RepositoryClient.beginTransaction`: one POST, id extraction from the
Location header, and handle construction. -/
def RepositoryClient.beginTransaction (repositoryId : String)
    (iso : Option IsolationLevel) (t : Transport) :
    Except BeginError TxClient :=
  match t (RepositoryClient.beginTxReq repositoryId iso) with
  | .error e => .error (.transport e)
  | .ok resp =>
    let txnId := extractTxnId resp.location
    if txnId = "" then .error .missingTransactionId
    else .ok (TxClient.new repositoryId txnId)

/-! ## RDF4JClient.repositoryExists (src/client.ts lines 104-111) and
GraphStoreClient.exists (src/graph-store-client.ts lines 163-172) -/

def RDF4JClient.repositoryExistsReq (repositoryId : String) : HttpRequest :=
  { method := .HEAD, path := "/repositories/" ++ repositoryId }

/-- `repositoryExists`: a HEAD probe; any thrown transport error is caught
and converted to `false`. -/
def RDF4JClient.repositoryExists (repositoryId : String) (t : Transport) :
    Bool :=
  match t (RDF4JClient.repositoryExistsReq repositoryId) with
  | .ok _ => true
  | .error _ => false

def GraphStoreClient.basePath (repositoryId : String) : String :=
  "/repositories/" ++ repositoryId ++ "/rdf-graphs"

def GraphStoreClient.existsReq (repositoryId graphUri : String) :
    HttpRequest :=
  { method := .HEAD,
    path := GraphStoreClient.basePath repositoryId ++ "/service",
    params := [("graph", some (.str graphUri))] }

/-- `GraphStoreClient.exists` (named-graph existence check): a HEAD probe;
any thrown transport error is caught and converted to `false`. -/
def GraphStoreClient.existsGraph (repositoryId graphUri : String)
    (t : Transport) : Bool :=
  match t (GraphStoreClient.existsReq repositoryId graphUri) with
  | .ok _ => true
  | .error _ => false

/-! ## Lookup lemmas for the parameter encoder -/

theorem graphKey_injective (base : String) : Function.Injective (graphKey base) := by
  intro i j h
  by_contra hne
  exact idxSuffix_injective hne (append_left_cancel_str h)

theorem mem_graphPairs (base : String) (uris : List String) (i : Nat)
    (h : i < uris.length) :
    (graphKey base i, some (PVal.str uris[i])) ∈ graphPairs base uris := by
  rw [graphPairs]
  refine List.mem_map.mpr ⟨(i, uris[i]), ?_, rfl⟩
  rw [List.mk_mem_enum_iff_getElem?]
  exact List.getElem?_eq_getElem h

theorem graphPairs_keys_nodup (base : String) (uris : List String) :
    ((graphPairs base uris).map Prod.fst).Nodup := by
  rw [graphPairs, List.map_map]
  rw [show (Prod.fst ∘ fun p : Nat × String =>
      (graphKey base p.1, some (PVal.str p.2))) =
      (graphKey base) ∘ Prod.fst from rfl]
  rw [← List.map_map, List.enum_map_fst]
  exact (List.nodup_range _).map (graphKey_injective base)

theorem objLookup_addGraphParams_list (ps : ParamRec) (base : String)
    (uris : List String) (i : Nat) (h : i < uris.length) :
    objLookup (addGraphParams ps base (some (.list uris))) (graphKey base i) =
      some (some (.str uris[i])) := by
  rw [addGraphParams]
  exact objLookup_setAll_mem (graphPairs base uris) ps (graphKey base i)
    (some (.str uris[i])) (mem_graphPairs base uris i h)
    (graphPairs_keys_nodup base uris)

theorem objLookup_addGraphParams_ne (ps : ParamRec) (base : String)
    (v : Option StrOrList) (k : String) (hk : ∀ i, graphKey base i ≠ k) :
    objLookup (addGraphParams ps base v) k = objLookup ps k := by
  cases v with
  | none => rfl
  | some g =>
    cases g with
    | str s =>
      rw [addGraphParams]
      split
      · rfl
      · apply objLookup_setAll_of_ne
        intro p hp
        obtain ⟨pr, _, rfl⟩ := List.mem_map.mp hp
        exact hk pr.1
    | list l =>
      rw [addGraphParams]
      apply objLookup_setAll_of_ne
      intro p hp
      obtain ⟨pr, _, rfl⟩ := List.mem_map.mp hp
      exact hk pr.1

theorem bindingKey_head (k : String) : (bindingKey k).data.head? = some '$' := by
  rw [bindingKey]
  split
  · assumption
  · rfl

theorem addBindings_eq_setAll (ps : ParamRec) (bs : List (String × String)) :
    addBindings ps (some bs) =
      setAll ps (bs.map (fun kv => (bindingKey kv.1, some (PVal.str kv.2)))) := by
  rw [addBindings, setAll, List.foldl_map]

theorem objLookup_addBindings_ne (ps : ParamRec)
    (bs : Option (List (String × String))) (k : String)
    (hk : k.data.head? ≠ some '$') :
    objLookup (addBindings ps bs) k = objLookup ps k := by
  cases bs with
  | none => rfl
  | some l =>
    rw [addBindings_eq_setAll, objLookup_setAll_of_ne]
    intro p hp
    obtain ⟨kv, _, rfl⟩ := List.mem_map.mp hp
    exact fun h => hk (h ▸ bindingKey_head kv.1)

theorem graphKey_head (base : String) (c : Char) (hb : base.data[0]? = some c)
    (i : Nat) : (graphKey base i).data.head? = some c := by
  rw [List.head?_eq_getElem?]
  exact append_getElem?_left base (idxSuffix i) 0 c hb

/-- The `query` key written first by `buildQueryParams` survives the graph
and binding blocks: graph keys start with `d`/`n` and binding keys with
`$`. -/
theorem buildQueryParams_query (q : String) (options : Option QueryOptions) :
    objLookup (buildQueryParams q options) "query" = some (some (.str q)) := by
  rw [buildQueryParams]
  rw [objLookup_addBindings_ne _ _ _ (by decide)]
  rw [objLookup_addGraphParams_ne _ "named-graph-uri" _ _
    (fun i => append_ne_of_getElem? "named-graph-uri" (idxSuffix i) "query"
      0 'n' 'q' (by decide) (by decide) (by decide))]
  rw [objLookup_addGraphParams_ne _ "default-graph-uri" _ _
    (fun i => append_ne_of_getElem? "default-graph-uri" (idxSuffix i) "query"
      0 'd' 'q' (by decide) (by decide) (by decide))]
  rfl

theorem lookup_buildQueryParams_dgu (q : String) (options : QueryOptions)
    (uris : List String) (hd : options.defaultGraphUri = some (.list uris))
    (i : Nat) (h : i < uris.length) :
    objLookup (buildQueryParams q (some options))
      (graphKey "default-graph-uri" i) = some (some (.str uris[i])) := by
  rw [buildQueryParams]
  rw [objLookup_addBindings_ne _ _ _ (by
    rw [graphKey_head "default-graph-uri" 'd' (by decide) i]
    decide)]
  rw [objLookup_addGraphParams_ne _ "named-graph-uri" _
    (graphKey "default-graph-uri" i)
    (fun j => show graphKey "named-graph-uri" j ≠
        graphKey "default-graph-uri" i from
      append_ne_append_of_getElem? "named-graph-uri"
        "default-graph-uri" (idxSuffix j) (idxSuffix i) 0 'n' 'd'
        (by decide) (by decide) (by decide))]
  rw [show (some options).bind QueryOptions.defaultGraphUri =
    some (StrOrList.list uris) from hd]
  exact objLookup_addGraphParams_list _ _ uris i h

theorem lookup_buildQueryParams_ngu (q : String) (options : QueryOptions)
    (uris : List String) (hn : options.namedGraphUri = some (.list uris))
    (i : Nat) (h : i < uris.length) :
    objLookup (buildQueryParams q (some options))
      (graphKey "named-graph-uri" i) = some (some (.str uris[i])) := by
  rw [buildQueryParams]
  rw [objLookup_addBindings_ne _ _ _ (by
    rw [graphKey_head "named-graph-uri" 'n' (by decide) i]
    decide)]
  rw [show (some options).bind QueryOptions.namedGraphUri =
    some (StrOrList.list uris) from hn]
  exact objLookup_addGraphParams_list _ _ uris i h

theorem lookup_updateWithGraphsParams_ugu (uoptions : UpdateGraphOptions)
    (uris : List String)
    (hu : uoptions.usingGraphUri = some (.list uris))
    (i : Nat) (h : i < uris.length) :
    objLookup (updateWithGraphsParams (some uoptions))
      (graphKey "using-graph-uri" i) = some (some (.str uris[i])) := by
  rw [updateWithGraphsParams]
  rw [objLookup_addGraphParams_ne _ "using-named-graph-uri" _
    (graphKey "using-graph-uri" i)
    (fun j => show graphKey "using-named-graph-uri" j ≠
        graphKey "using-graph-uri" i from
      append_ne_append_of_getElem? "using-named-graph-uri"
        "using-graph-uri" (idxSuffix j) (idxSuffix i) 6 'n' 'g'
        (by decide) (by decide) (by decide))]
  rw [show (some uoptions).bind UpdateGraphOptions.usingGraphUri =
    some (StrOrList.list uris) from hu]
  exact objLookup_addGraphParams_list _ _ uris i h

theorem lookup_updateWithGraphsParams_ungu (uoptions : UpdateGraphOptions)
    (uris : List String)
    (hu : uoptions.usingNamedGraphUri = some (.list uris))
    (i : Nat) (h : i < uris.length) :
    objLookup (updateWithGraphsParams (some uoptions))
      (graphKey "using-named-graph-uri" i) = some (some (.str uris[i])) := by
  rw [updateWithGraphsParams]
  rw [show (some uoptions).bind UpdateGraphOptions.usingNamedGraphUri =
    some (StrOrList.list uris) from hu]
  exact objLookup_addGraphParams_list _ _ uris i h

/-! ## Claim theorems -/

/-- A transport that accepts every request (used for concrete witnesses). -/
def okTransport : Transport := fun _ => .ok {}

/-- C1: on a Closed handle (`active = false`), every guarded operation —
query, update, add, delete, getStatements, size, ping, and commit or
rollback called again — fails synchronously with the transaction-not-active
error, issues no wire request (empty trace, so no transport call is made),
and leaves the handle unchanged. -/
theorem C1_closed_handle_guards (c : TxClient) (t : Transport)
    (h : c.active = false) :
    (∀ sparql options, c.query sparql options t = ⟨[], .error .notActive, c⟩) ∧
    (∀ sparql timeout, c.update sparql timeout t =
      ⟨[], .error .notActive, c⟩) ∧
    (∀ data options, c.add data options t = ⟨[], .error .notActive, c⟩) ∧
    (∀ options, c.delete options t = ⟨[], .error .notActive, c⟩) ∧
    (∀ options accept, c.getStatements options accept t =
      ⟨[], .error .notActive, c⟩) ∧
    (∀ context, c.size context t = ⟨[], .error .notActive, c⟩) ∧
    (c.ping t = ⟨[], .error .notActive, c⟩) ∧
    (c.commit t = ⟨[], .error .notActive, c⟩) ∧
    (c.rollback t = ⟨[], .error .notActive, c⟩) := by
  refine ⟨?_, ?_, ?_, ?_, ?_, ?_, ?_, ?_, ?_⟩ <;> intros <;>
    simp [TxClient.query, TxClient.update, TxClient.add, TxClient.delete,
      TxClient.getStatements, TxClient.size, TxClient.ping, TxClient.commit,
      TxClient.rollback, h]

/-- Witness for C1 at the concrete closed handle `⟨"r", "t", false⟩`. -/
theorem C1_closed_handle_guards_witness :
    (TxClient.mk "r" "t" false).active = false ∧
    (TxClient.mk "r" "t" false).ping okTransport =
      ⟨[], .error .notActive, TxClient.mk "r" "t" false⟩ :=
  ⟨rfl, (C1_closed_handle_guards (TxClient.mk "r" "t" false) okTransport
    rfl).2.2.2.2.2.2.1⟩

/-- C2: the `active` flag starts `true` at handle construction; the seven
non-terminating operations never change the handle's state; commit and
rollback leave the state (hence the flag) unchanged when their request
raises a transport error — so a retry is still permitted — and flip the flag
to `false` exactly when their request succeeded on an Active handle; and on
an already-Closed handle every operation leaves the state unchanged, so the
flag is never set back to `true`. -/
theorem C2_active_flag_lifecycle (c : TxClient) (t : Transport) :
    (∀ repositoryId transactionId,
      (TxClient.new repositoryId transactionId).active = true) ∧
    (∀ sparql options, (c.query sparql options t).state = c) ∧
    (∀ sparql timeout, (c.update sparql timeout t).state = c) ∧
    (∀ data options, (c.add data options t).state = c) ∧
    (∀ options, (c.delete options t).state = c) ∧
    (∀ options accept, (c.getStatements options accept t).state = c) ∧
    (∀ context, (c.size context t).state = c) ∧
    ((c.ping t).state = c) ∧
    (c.active = true →
      (∀ e, t c.commitReq = .error e → (c.commit t).state = c) ∧
      (∀ e, t c.rollbackReq = .error e → (c.rollback t).state = c) ∧
      (∀ r, t c.commitReq = .ok r →
        (c.commit t).state = { c with active := false }) ∧
      (∀ r, t c.rollbackReq = .ok r →
        (c.rollback t).state = { c with active := false })) ∧
    (c.active = false → (c.commit t).state = c ∧ (c.rollback t).state = c) := by
  refine ⟨fun _ _ => rfl, ?_, ?_, ?_, ?_, ?_, ?_, ?_, ?_, ?_⟩
  · intro sparql options
    rw [TxClient.query]
    split
    · rfl
    · cases t (c.queryReq sparql options) <;> rfl
  · intro sparql timeout
    rw [TxClient.update]
    split
    · rfl
    · cases t (c.updateReq sparql timeout) <;> rfl
  · intro data options
    rw [TxClient.add]
    split
    · rfl
    · cases t (c.addReq data options) <;> rfl
  · intro options
    rw [TxClient.delete]
    split
    · rfl
    · cases t (c.deleteReq options) <;> rfl
  · intro options accept
    rw [TxClient.getStatements]
    split
    · rfl
    · cases t (c.getStatementsReq options accept) <;> rfl
  · intro context
    rw [TxClient.size]
    split
    · rfl
    · cases t (c.sizeReq context) <;> rfl
  · rw [TxClient.ping]
    split
    · rfl
    · cases t c.pingReq <;> rfl
  · intro hact
    refine ⟨?_, ?_, ?_, ?_⟩
    · intro e he
      simp [TxClient.commit, hact, he]
    · intro e he
      simp [TxClient.rollback, hact, he]
    · intro r hr
      simp [TxClient.commit, hact, hr]
    · intro r hr
      simp [TxClient.rollback, hact, hr]
  · intro hact
    constructor <;> simp [TxClient.commit, TxClient.rollback, hact]

/-- Witness for C2 at the concrete fresh handle `TxClient.new "r" "t"` and
the all-accepting transport: a successful commit flips the flag. -/
theorem C2_active_flag_lifecycle_witness :
    ((TxClient.new "r" "t").commit okTransport).state =
      { TxClient.new "r" "t" with active := false } :=
  ((C2_active_flag_lifecycle (TxClient.new "r" "t")
    okTransport).2.2.2.2.2.2.2.2.1 rfl).2.2.1 {} rfl

/-- C3 counterexample: on the fresh handle `⟨"r", "t", true⟩` with an
all-accepting transport, the single request issued by `rollback` is a bare
DELETE of the transaction resource with an empty parameter list — it does
not carry a `ROLLBACK` action discriminator as the claim states. -/
theorem C3_counterexample :
    ((TxClient.new "r" "t").rollback okTransport).trace =
      [{ method := .DELETE, path := "/repositories/r/transactions/t" }] ∧
    ("action", some (PVal.str "ROLLBACK")) ∉
      ({ method := .DELETE,
         path := "/repositories/r/transactions/t" } : HttpRequest).params := by
  constructor
  · rfl
  · simp [HttpRequest.params]

/-- C3 (amended): on an Active handle, commit issues exactly one PUT to the
transaction's resource path carrying the COMMIT action discriminator as a
parameter, and rollback issues exactly one DELETE to the transaction's
resource path with no parameters (no action discriminator: the DELETE
method itself discriminates). -/
theorem C3_commit_rollback_requests (c : TxClient) (t : Transport)
    (h : c.active = true) :
    (c.commit t).trace = [c.commitReq] ∧
    (c.rollback t).trace = [c.rollbackReq] ∧
    c.commitReq =
      { method := .PUT, path := c.basePath,
        params := [("action", some (PVal.str "COMMIT"))] } ∧
    c.rollbackReq =
      { method := .DELETE, path := c.basePath, params := [] } := by
  refine ⟨?_, ?_, rfl, rfl⟩
  · rw [TxClient.commit]
    simp only [h]
    cases t c.commitReq <;> rfl
  · rw [TxClient.rollback]
    simp only [h]
    cases t c.rollbackReq <;> rfl

/-- Witness for C3 (amended) at the concrete fresh handle
`TxClient.new "r" "t"` and the all-accepting transport. -/
theorem C3_commit_rollback_requests_witness :
    ((TxClient.new "r" "t").commit okTransport).trace =
      [(TxClient.new "r" "t").commitReq] :=
  (C3_commit_rollback_requests (TxClient.new "r" "t") okTransport rfl).1

/-- C4 counterexample: the claim's scalar clause fails at the empty-string
scalar.  `if (options?.defaultGraphUri)` treats the scalar `""` as falsy and
skips the block entirely, while the one-element list `[""]` is truthy and
emits the bare key — so the scalar `""` is not encoded like the one-element
list `[""]`. -/
theorem C4_counterexample :
    objLookup (buildQueryParams "SELECT 1"
        (some { defaultGraphUri := some (.str "") })) "default-graph-uri" =
      none ∧
    objLookup (buildQueryParams "SELECT 1"
        (some { defaultGraphUri := some (.list [""]) })) "default-graph-uri" =
      some (some (.str "")) := by
  constructor <;> decide

/-- C4 (amended): for every list-valued graph-URI option (defaultGraphUri,
namedGraphUri, usingGraphUri, usingNamedGraphUri) with elements
`[u0, ..., un]`, the encoder emits element `uj` under the key
`base ++ idxSuffix j`, where the index suffix is empty for `j = 0` (the bare
key) and the decimal numeral of `j` for `j > 0`; a *nonempty* scalar value
is encoded exactly like a one-element list; an empty-string scalar is falsy
and the option is skipped entirely. -/
theorem C4_graph_uri_encoding (q : String) (options : QueryOptions)
    (uoptions : UpdateGraphOptions) (uris : List String) (s : String) :
    (∀ base, graphKey base 0 = base) ∧
    (∀ base j, 0 < j → graphKey base j = base ++ Nat.repr j) ∧
    (options.defaultGraphUri = some (.list uris) →
      ∀ j (h : j < uris.length),
        objLookup (buildQueryParams q (some options))
          (graphKey "default-graph-uri" j) = some (some (.str uris[j]))) ∧
    (options.namedGraphUri = some (.list uris) →
      ∀ j (h : j < uris.length),
        objLookup (buildQueryParams q (some options))
          (graphKey "named-graph-uri" j) = some (some (.str uris[j]))) ∧
    (uoptions.usingGraphUri = some (.list uris) →
      ∀ j (h : j < uris.length),
        objLookup (updateWithGraphsParams (some uoptions))
          (graphKey "using-graph-uri" j) = some (some (.str uris[j]))) ∧
    (uoptions.usingNamedGraphUri = some (.list uris) →
      ∀ j (h : j < uris.length),
        objLookup (updateWithGraphsParams (some uoptions))
          (graphKey "using-named-graph-uri" j) =
            some (some (.str uris[j]))) ∧
    (s ≠ "" →
      buildQueryParams q
          (some { options with defaultGraphUri := some (.str s) }) =
        buildQueryParams q
          (some { options with defaultGraphUri := some (.list [s]) }) ∧
      buildQueryParams q
          (some { options with namedGraphUri := some (.str s) }) =
        buildQueryParams q
          (some { options with namedGraphUri := some (.list [s]) }) ∧
      updateWithGraphsParams
          (some { uoptions with usingGraphUri := some (.str s) }) =
        updateWithGraphsParams
          (some { uoptions with usingGraphUri := some (.list [s]) }) ∧
      updateWithGraphsParams
          (some { uoptions with usingNamedGraphUri := some (.str s) }) =
        updateWithGraphsParams
          (some { uoptions with usingNamedGraphUri := some (.list [s]) })) := by
  refine ⟨?_, ?_, lookup_buildQueryParams_dgu q options uris,
    lookup_buildQueryParams_ngu q options uris,
    lookup_updateWithGraphsParams_ugu uoptions uris,
    lookup_updateWithGraphsParams_ungu uoptions uris, ?_⟩
  · intro base
    rw [graphKey, show idxSuffix 0 = "" from rfl]
    exact String.append_empty base
  · intro base j hj
    rw [graphKey, idxSuffix, if_pos hj]
  · intro hs
    refine ⟨?_, ?_, ?_, ?_⟩ <;>
      simp [buildQueryParams, updateWithGraphsParams, addGraphParams, hs]

/-- Witness for C4 (amended): `defaultGraphUri = ["a", "b"]` puts `"b"`
under the key `default-graph-uri1`. -/
theorem C4_graph_uri_encoding_witness :
    objLookup (buildQueryParams "SELECT 1"
        (some { defaultGraphUri := some (.list ["a", "b"]) }))
      (graphKey "default-graph-uri" 1) = some (some (.str "b")) :=
  (C4_graph_uri_encoding "SELECT 1"
    { defaultGraphUri := some (.list ["a", "b"]) }
    {} ["a", "b"] "x").2.2.1 rfl 1 (by decide)

/-- C5: for every SPARQL string and every option record, the parameter set
of `queryPost` equals the parameter set of `query` with exactly the `query`
key removed — every other key resolves identically — and `queryPost` carries
the SPARQL string as the request body instead (the GET request has no
body). -/
theorem C5_queryPost_strips_query (repositoryId sparql : String)
    (options : Option QueryOptions) :
    (∀ k, k ≠ "query" →
      objLookup (RepositoryClient.queryPostReq repositoryId sparql
        options).params k =
      objLookup (RepositoryClient.queryReq repositoryId sparql
        options).params k) ∧
    objLookup (RepositoryClient.queryPostReq repositoryId sparql
      options).params "query" = none ∧
    objLookup (RepositoryClient.queryReq repositoryId sparql
      options).params "query" = some (some (.str sparql)) ∧
    (RepositoryClient.queryPostReq repositoryId sparql options).body =
      some sparql ∧
    (RepositoryClient.queryReq repositoryId sparql options).body = none := by
  refine ⟨?_, ?_, buildQueryParams_query sparql options, rfl, rfl⟩
  · intro k hk
    show objLookup (objRemove (buildQueryParams sparql options) "query") k = _
    rw [objLookup_objRemove, if_neg hk]
    rfl
  · show objLookup (objRemove (buildQueryParams sparql options) "query")
      "query" = none
    rw [objLookup_objRemove, if_pos rfl]

/-- Witness for C5 at a concrete query: the `infer` key resolves identically
on the GET and POST parameter sets. -/
theorem C5_queryPost_strips_query_witness :
    "infer" ≠ "query" ∧
    objLookup (RepositoryClient.queryPostReq "r" "SELECT 1"
      none).params "infer" =
    objLookup (RepositoryClient.queryReq "r" "SELECT 1"
      none).params "infer" :=
  ⟨by decide, (C5_queryPost_strips_query "r" "SELECT 1" none).1 "infer"
    (by decide)⟩

/-- C6: `repositoryExists` and the graph-store existence check return
`false` (never throw) whenever the transport probe raises any error, and
`true` on a successful probe; `getNamespace` returns `null` (never throws)
whenever the transport raises any error, and the response body on success.
These are the only modelled operations that absorb a transport error into a
data value: every other operation of the embedding — repository query,
queryPost, update, size, beginTransaction, and all nine transaction
operations on an Active handle — propagates the transport error as an
error. -/
theorem C6_error_absorption (repositoryId graphUri pfx sparql data : String)
    (options : Option QueryOptions) (aoptions : AddOptions)
    (soptions : Option StatementOptions) (accept : Option String)
    (context : Option String) (timeout : Option Nat)
    (iso : Option IsolationLevel) (e : TError) (t : Transport) :
    (RDF4JClient.repositoryExists repositoryId (fun _ => .error e) = false) ∧
    (∀ r, t (RDF4JClient.repositoryExistsReq repositoryId) = .ok r →
      RDF4JClient.repositoryExists repositoryId t = true) ∧
    (GraphStoreClient.existsGraph repositoryId graphUri (fun _ => .error e) =
      false) ∧
    (∀ r, t (GraphStoreClient.existsReq repositoryId graphUri) = .ok r →
      GraphStoreClient.existsGraph repositoryId graphUri t = true) ∧
    (RepositoryClient.getNamespace repositoryId pfx (fun _ => .error e) =
      none) ∧
    (∀ r, t (RepositoryClient.getNamespaceReq repositoryId pfx) = .ok r →
      RepositoryClient.getNamespace repositoryId pfx t = some r.body) ∧
    (RepositoryClient.query repositoryId sparql options (fun _ => .error e) =
      .error e) ∧
    (RepositoryClient.queryPost repositoryId sparql options
      (fun _ => .error e) = .error e) ∧
    (RepositoryClient.update repositoryId sparql timeout
      (fun _ => .error e) = .error e) ∧
    (RepositoryClient.size repositoryId context (fun _ => .error e) =
      .error e) ∧
    (RepositoryClient.beginTransaction repositoryId iso (fun _ => .error e) =
      .error (.transport e)) ∧
    (∀ c : TxClient, c.active = true →
      (c.query sparql options (fun _ => .error e)).result =
        .error (.transport e) ∧
      (c.update sparql timeout (fun _ => .error e)).result =
        .error (.transport e) ∧
      (c.add data aoptions (fun _ => .error e)).result =
        .error (.transport e) ∧
      (c.delete soptions (fun _ => .error e)).result =
        .error (.transport e) ∧
      (c.getStatements soptions accept (fun _ => .error e)).result =
        .error (.transport e) ∧
      (c.size context (fun _ => .error e)).result = .error (.transport e) ∧
      (c.commit (fun _ => .error e)).result = .error (.transport e) ∧
      (c.rollback (fun _ => .error e)).result = .error (.transport e) ∧
      (c.ping (fun _ => .error e)).result = .error (.transport e)) := by
  refine ⟨rfl, ?_, rfl, ?_, rfl, ?_, rfl, rfl, rfl, rfl, rfl, ?_⟩
  · intro r hr
    simp [RDF4JClient.repositoryExists, hr]
  · intro r hr
    simp [GraphStoreClient.existsGraph, hr]
  · intro r hr
    simp [RepositoryClient.getNamespace, hr]
  · intro c hact
    refine ⟨?_, ?_, ?_, ?_, ?_, ?_, ?_, ?_, ?_⟩ <;>
      simp [TxClient.query, TxClient.update, TxClient.add, TxClient.delete,
        TxClient.getStatements, TxClient.size, TxClient.commit,
        TxClient.rollback, TxClient.ping, hact]

/-- Witness for C6: a successful probe makes `repositoryExists` true. -/
theorem C6_error_absorption_witness :
    RDF4JClient.repositoryExists "r" okTransport = true :=
  (C6_error_absorption "r" "g" "p" "SELECT 1" "d" none
    { contentType := "text/turtle" } none none none none none
    { status := 500, statusText := "err" } okTransport).2.1 {} rfl

/-- C7: on a successful creation response, `beginTransaction` fails with the
missing-transaction-id error (and constructs no handle) exactly when no
nonempty transaction identifier can be extracted from the Location header;
when the identifier is nonempty, the returned handle is Active, its id is
the extracted identifier, and it addresses the transaction resource under
the repository's path. -/
theorem C7_begin_transaction (repositoryId : String)
    (iso : Option IsolationLevel) (t : Transport) (resp : HttpResponse)
    (h : t (RepositoryClient.beginTxReq repositoryId iso) = .ok resp) :
    (RepositoryClient.beginTransaction repositoryId iso t =
        .error .missingTransactionId ↔ extractTxnId resp.location = "") ∧
    (extractTxnId resp.location ≠ "" →
      RepositoryClient.beginTransaction repositoryId iso t =
        .ok (TxClient.new repositoryId (extractTxnId resp.location))) ∧
    (∀ c, RepositoryClient.beginTransaction repositoryId iso t = .ok c →
      c.active = true ∧
      c.basePath = RepositoryClient.basePath repositoryId ++
        "/transactions/" ++ extractTxnId resp.location) := by
  rw [RepositoryClient.beginTransaction, h]
  by_cases he : extractTxnId resp.location = ""
  · simp only [he, if_pos rfl]
    refine ⟨by simp, by simp, ?_⟩
    intro c hc
    simp at hc
  · simp only [if_neg he]
    refine ⟨?_, fun _ => by trivial, ?_⟩
    · constructor
      · intro hc
        exact absurd hc (by simp)
      · intro hc
        exact absurd hc he
    intro c hc
    have : TxClient.new repositoryId (extractTxnId resp.location) = c :=
      Except.ok.inj hc
    subst this
    refine ⟨rfl, ?_⟩
    simp [TxClient.basePath, TxClient.new, RepositoryClient.basePath,
      String.append_assoc]

/-- A transport whose creation response carries a well-formed Location
header (used for concrete witnesses). -/
def beginOkTransport : Transport := fun _ =>
  .ok { location := some "http://localhost/repositories/r/transactions/abc123" }

/-- Witness for C7: the extracted id `abc123` yields an Active handle. -/
theorem C7_begin_transaction_witness :
    extractTxnId
      (some "http://localhost/repositories/r/transactions/abc123") ≠ "" ∧
    RepositoryClient.beginTransaction "r" none beginOkTransport =
      .ok (TxClient.new "r" (extractTxnId
        (some "http://localhost/repositories/r/transactions/abc123"))) :=
  ⟨by decide, (C7_begin_transaction "r" none beginOkTransport
    { location := some "http://localhost/repositories/r/transactions/abc123" }
    rfl).2.1 (by decide)⟩

/-- C8: for every parameter record with (JS-object) distinct keys, every
entry whose value is `undefined` is omitted entirely from the query string
built by `buildUrl` — its key never appears, so it is never serialized as an
empty value or the literal string "undefined" — while every defined string,
number, or boolean value is included under its key as `String(value)`; and
every emitted pair comes from a defined entry. -/
theorem C8_undefined_params_omitted (params : ParamRec)
    (hnd : (params.map Prod.fst).Nodup) :
    (∀ k, (k, none) ∈ params → ∀ s, (k, s) ∉ buildSearchParams params) ∧
    (∀ k v, (k, some v) ∈ params →
      (k, v.jsString) ∈ buildSearchParams params) ∧
    (∀ k s, (k, s) ∈ buildSearchParams params →
      ∃ v, (k, some v) ∈ params ∧ s = v.jsString) := by
  have heq := buildSearchParams_eq params hnd
  refine ⟨?_, ?_, ?_⟩
  · intro k hk s hmem
    rw [heq, definedPairs] at hmem
    obtain ⟨p, hp, he⟩ := List.mem_filterMap.mp hmem
    obtain ⟨k', v'⟩ := p
    cases v' with
    | none => simp at he
    | some v =>
      simp only [Option.map_some'] at he
      obtain ⟨rfl, rfl⟩ : k' = k ∧ v.jsString = s := by
        constructor <;> [exact ((Prod.mk.injEq ..).mp (Option.some.inj he)).1;
          exact ((Prod.mk.injEq ..).mp (Option.some.inj he)).2]
      exact Option.noConfusion (nodup_keys_val_eq hnd hk hp)
  · intro k v hmem
    rw [heq, definedPairs]
    exact List.mem_filterMap.mpr ⟨(k, some v), hmem, rfl⟩
  · intro k s hmem
    rw [heq, definedPairs] at hmem
    obtain ⟨p, hp, he⟩ := List.mem_filterMap.mp hmem
    obtain ⟨k', v'⟩ := p
    cases v' with
    | none => simp at he
    | some v =>
      simp only [Option.map_some'] at he
      obtain ⟨rfl, rfl⟩ : k' = k ∧ v.jsString = s := by
        constructor <;> [exact ((Prod.mk.injEq ..).mp (Option.some.inj he)).1;
          exact ((Prod.mk.injEq ..).mp (Option.some.inj he)).2]
      exact ⟨v, hp, rfl⟩

/-- Witness for C8 at a concrete record: the defined entry is emitted, and
the key of the `undefined` entry is omitted. -/
theorem C8_undefined_params_omitted_witness :
    ("a", PVal.jsString (.str "x")) ∈
      buildSearchParams [("a", some (.str "x")), ("b", none)] ∧
    ∀ s, ("b", s) ∉ buildSearchParams [("a", some (.str "x")), ("b", none)] :=
  ⟨(C8_undefined_params_omitted [("a", some (.str "x")), ("b", none)]
      (by decide)).2.1 "a" (.str "x") (by decide),
   (C8_undefined_params_omitted [("a", some (.str "x")), ("b", none)]
      (by decide)).1 "b" (by decide)⟩

/-- A transport answering with the plain-text body `12345` (used for the C9
witness). -/
def sizeOkTransport : Transport := fun _ => .ok { body := "12345" }

/-- C9: both size variants return `parseInt(body, 10)` of the plain-text
response body — the repository-level `size` as its value and the
transaction-scoped `size` as its result — so the body `"12345"` yields the
integer `12345` and a body containing no digit (e.g. `"abc"`) yields `NaN`
(modelled as `none`) rather than a thrown error. -/
theorem C9_size_parseInt (repositoryId : String) (context : Option String)
    (c : TxClient) (t : Transport) :
    (∀ resp, t (RepositoryClient.sizeReq repositoryId context) = .ok resp →
      RepositoryClient.size repositoryId context t =
        .ok (jsParseInt resp.body)) ∧
    (c.active = true → ∀ resp, t (c.sizeReq context) = .ok resp →
      (c.size context t).result = .ok (jsParseInt resp.body)) ∧
    jsParseInt "12345" = some 12345 ∧
    jsParseInt "abc" = none ∧
    (∀ s, (∀ ch ∈ s.data, ¬ ch.isDigit) → jsParseInt s = none) := by
  refine ⟨?_, ?_, by decide, by decide, jsParseInt_of_no_digit⟩
  · intro resp h
    rw [RepositoryClient.size, h]
  · intro hact resp h
    rw [TxClient.size]
    simp [hact, h]

/-- Witness for C9: the body `"12345"` produces the integer `12345`. -/
theorem C9_size_parseInt_witness :
    RepositoryClient.size "r" none sizeOkTransport = .ok (some 12345) :=
  ((C9_size_parseInt "r" none (TxClient.new "r" "t") sizeOkTransport).1
      { body := "12345" } rfl).trans
    (congrArg Except.ok (by decide))

/-- C10: the transaction identifier is the substring after the final `/` of
the Location header value: with the header present, `beginTransaction` fails
with the missing-transaction-id error exactly when the header value is empty
or ends with `/` (its last character is `'/'`), and otherwise the
constructed handle's id equals that final path segment exactly. -/
theorem C10_location_final_segment (repositoryId : String)
    (iso : Option IsolationLevel) (t : Transport) (resp : HttpResponse)
    (loc : String)
    (h : t (RepositoryClient.beginTxReq repositoryId iso) = .ok resp)
    (hloc : resp.location = some loc) :
    (RepositoryClient.beginTransaction repositoryId iso t =
        .error .missingTransactionId ↔
      (loc = "" ∨ loc.data.getLast? = some '/')) ∧
    (∀ c, RepositoryClient.beginTransaction repositoryId iso t = .ok c →
      c.transactionId = (afterLast '/' loc.data).asString) := by
  have hex : extractTxnId resp.location = (afterLast '/' loc.data).asString := by
    rw [hloc, extractTxnId]
    rw [show (some loc).getD "" = loc from rfl]
    rw [List.getLastD_eq_getLast?, jsSplit_getLast? '/' loc.data]
    rfl
  have hchar : extractTxnId resp.location = "" ↔
      (loc = "" ∨ loc.data.getLast? = some '/') := by
    rw [hex]
    constructor
    · intro hh
      have hnil : afterLast '/' loc.data = [] := by
        have := congrArg String.data hh
        simpa [List.asString] using this
      rcases (afterLast_eq_nil_iff '/' loc.data).mp hnil with h1 | h2
      · left
        exact String.ext h1
      · right
        exact h2
    · intro hh
      have hnil : afterLast '/' loc.data = [] := by
        refine (afterLast_eq_nil_iff '/' loc.data).mpr ?_
        rcases hh with h1 | h2
        · left
          rw [h1]
        · right
          exact h2
      rw [hnil]
      rfl
  rw [RepositoryClient.beginTransaction, h]
  by_cases he : extractTxnId resp.location = ""
  · simp only [he, if_pos rfl]
    refine ⟨by simp [← hchar, he], ?_⟩
    intro c hc
    simp at hc
  · simp only [if_neg he]
    constructor
    · simp only [← hchar]
      constructor
      · intro hc
        simp at hc
      · intro hc
        exact absurd hc he
    · intro c hc
      have : TxClient.new repositoryId (extractTxnId resp.location) = c :=
        Except.ok.inj hc
      subst this
      rw [show (TxClient.new repositoryId
        (extractTxnId resp.location)).transactionId =
        extractTxnId resp.location from rfl, hex]

/-- Witness for C10: Location `http://h/repositories/r/transactions/tx9`
gives the handle id `tx9`, the final path segment. -/
theorem C10_location_final_segment_witness :
    (TxClient.new "r" "tx9").transactionId =
      (afterLast '/' ("http://h/x/tx9").data).asString :=
  (C10_location_final_segment "r" none
    (fun _ => .ok { location := some "http://h/x/tx9" })
    { location := some "http://h/x/tx9" } "http://h/x/tx9" rfl rfl).2
    (TxClient.new "r" "tx9") rfl

end RDF4J
